import Mathlib

/-!
Shallow embedding of the InboxOracle rule engine
(src/InboxOracle/process_rules.py together with the Email record of
src/InboxOracle/models.py), and proofs about it.

Modelling decisions, used throughout:
* Python datetime objects are the structure PyDateTime below; the field
  aware records whether a tzinfo is attached (the code only ever attaches
  UTC, via received.replace(tzinfo=timezone.utc), so an aware value always
  means offset +00:00).  Python raises TypeError when ordering an aware
  and a naive datetime, and its equality across that mix is False; both
  behaviours are reproduced.
* The external library call dateutil.parser.parse is modelled by
  dateutil_parse on the ISO-8601 subset "YYYY-MM-DD[THH:MM:SS][Z]";
  a trailing "Z" yields an aware (UTC) value, no suffix yields a naive
  value, and any other text fails to parse (dateutil raises ParserError,
  modelled as Option.none).
* Python exceptions are the error side of Except PyErr; code that does not
  catch them is a function into Except, code that catches them is total.
* Text manipulation (lowercasing, substring test, splitting) is carried
  out on the character lists underlying Lean strings, so that every
  definition evaluates inside the kernel.
-/

namespace InboxOracle

/-- Model of a Python datetime value: calendar fields plus whether a
tzinfo (always UTC here) is attached. -/
structure PyDateTime where
  year : Nat
  month : Nat
  day : Nat
  hour : Nat
  minute : Nat
  second : Nat
  aware : Bool
deriving DecidableEq, Repr

/-- Positional key realising chronological order of the calendar fields;
for datetimes satisfying the Python validity ranges (month in 1..12, day
in 1..31, hour below 24, minute and second below 60) the key order is
exactly lexicographic order of the fields, which is the order Python uses. -/
def PyDateTime.key (d : PyDateTime) : Nat :=
  ((((d.year * 13 + d.month) * 32 + d.day) * 24 + d.hour) * 60 + d.minute) * 60 + d.second

/-- Strict chronological order on datetimes (tz flag not considered;
the caller checks awareness first, as Python does). -/
def dtLtB (a b : PyDateTime) : Bool := decide (a.key < b.key)

/-- Chronological "at least as late as" order, used for the descending
sort of the message query. -/
def dtGeB (a b : PyDateTime) : Bool := decide (b.key ≤ a.key)

/-- Lowercase a character list; model of Python str.lower(). -/
def lowerL (l : List Char) : List Char := l.map Char.toLower

/-- Case-insensitive equality of two strings; model of the Python
comparison a.lower() == b.lower(). -/
def strEqCI (a b : String) : Bool := lowerL a.toList == lowerL b.toList

/-- Model of the Python substring test (needle in hay) on char lists. -/
def containsL (hay needle : List Char) : Bool := decide (needle <:+: hay)

/-- Decimal digits of a number, as characters. -/
def natChars (n : Nat) : List Char := Nat.toDigits 10 n

/-- Left-pad a numeral to two digits, as Python str(datetime) does. -/
def pad2 (n : Nat) : List Char := if n < 10 then '0' :: natChars n else natChars n

/-- Left-pad a numeral to four digits, as Python str(datetime) does for
the year. -/
def pad4 (n : Nat) : List Char :=
  if n < 10 then '0' :: '0' :: '0' :: natChars n
  else if n < 100 then '0' :: '0' :: natChars n
  else if n < 1000 then '0' :: natChars n
  else natChars n

/-- Model of Python str() on a datetime: "YYYY-MM-DD HH:MM:SS" with the
"+00:00" suffix exactly when the value is timezone-aware. -/
def PyDateTime.toChars (d : PyDateTime) : List Char :=
  pad4 d.year ++ ['-'] ++ pad2 d.month ++ ['-'] ++ pad2 d.day ++ [' '] ++
  pad2 d.hour ++ [':'] ++ pad2 d.minute ++ [':'] ++ pad2 d.second ++
  (if d.aware then "+00:00".toList else [])

/-- Python exceptions that the embedded code can raise: a dateutil
ParserError, a TypeError from comparing aware with naive datetimes, and a
failure of a remote (Gmail API) call. -/
inductive PyErr where
  | parseError (text : String)
  | typeError
  | remoteError
deriving DecidableEq, Repr

/-- Email record of models.py: id (primary key), sender, to, subject,
body, received (a naive datetime as stored), is_read. -/
structure Email where
  id : String
  sender : String
  «to» : String
  subject : String
  body : String
  received : PyDateTime
  is_read : Bool
deriving DecidableEq, Repr

/-- Split a character list on a separator character; model of Python
str.split for the single-character separators used by the date parser. -/
def splitOnChar (sep : Char) : List Char → List (List Char)
  | [] => [[]]
  | c :: rest =>
    let r := splitOnChar sep rest
    if c == sep then [] :: r
    else
      match r with
      | h :: t => (c :: h) :: t
      | [] => [[c]]

/-- Numeric value of a digit list. -/
def digitsVal (l : List Char) : Nat := l.foldl (fun n c => n * 10 + (c.toNat - 48)) 0

/-- Parse a fixed-width, all-digit numeral. -/
def parseNatField (l : List Char) (width : Nat) : Option Nat :=
  if l.length == width && l.all Char.isDigit then some (digitsVal l) else none

/-- Parse "YYYY-MM-DD" with the Python datetime validity ranges. -/
def parseDate3 (l : List Char) : Option (Nat × Nat × Nat) :=
  match splitOnChar '-' l with
  | [y, m, d] => do
    let y ← parseNatField y 4
    let m ← parseNatField m 2
    let d ← parseNatField d 2
    if 1 ≤ m ∧ m ≤ 12 ∧ 1 ≤ d ∧ d ≤ 31 then some (y, m, d) else none
  | _ => none

/-- Parse "HH:MM:SS" with the Python datetime validity ranges. -/
def parseTime3 (l : List Char) : Option (Nat × Nat × Nat) :=
  match splitOnChar ':' l with
  | [h, mi, sec] => do
    let h ← parseNatField h 2
    let mi ← parseNatField mi 2
    let sec ← parseNatField sec 2
    if h ≤ 23 ∧ mi ≤ 59 ∧ sec ≤ 59 then some (h, mi, sec) else none
  | _ => none

/-- Model of the external dateutil.parser.parse on ISO-8601-like text:
"YYYY-MM-DD", optionally followed by "THH:MM:SS", optionally suffixed
with "Z".  The "Z" suffix produces a timezone-aware (UTC) value; without
it the parsed value is naive, exactly as dateutil behaves.  Any other
text raises ParserError, modelled as none. -/
def dateutil_parse (s : String) : Option PyDateTime :=
  let l := s.toList
  let aware := l.getLast? == some 'Z'
  let core := if aware then l.dropLast else l
  match splitOnChar 'T' core with
  | [d] =>
    match parseDate3 d with
    | some (y, m, dd) => some ⟨y, m, dd, 0, 0, 0, aware⟩
    | none => none
  | [d, t] =>
    match parseDate3 d, parseTime3 t with
    | some (y, m, dd), some (h, mi, sec) => some ⟨y, m, dd, h, mi, sec, aware⟩
    | _, _ => none
  | _ => none

instance {ε α : Type} [DecidableEq ε] [DecidableEq α] : DecidableEq (Except ε α) := fun x y =>
  match x, y with
  | .ok a, .ok b =>
    if h : a = b then isTrue (by rw [h]) else isFalse (by intro hh; cases hh; exact h rfl)
  | .error a, .error b =>
    if h : a = b then isTrue (by rw [h]) else isFalse (by intro hh; cases hh; exact h rfl)
  | .ok _, .error _ => isFalse (by intro hh; cases hh)
  | .error _, .ok _ => isFalse (by intro hh; cases hh)

/-- Value of a resolved message field inside _evaluate_condition: a string
for From/To/Subject/Message, a datetime for Received. -/
inductive FieldValue where
  | str (s : String)
  | dt (d : PyDateTime)
deriving DecidableEq, Repr

/-- Model of Python str() applied to a field value. -/
def FieldValue.toChars : FieldValue → List Char
  | .str s => s.toList
  | .dt d => d.toChars

/-- Model of the Equals comparison of _evaluate_condition: when both sides
are strings Python compares them lowercased; otherwise the plain ==, which
between datetimes is field equality when both carry the same awareness and
False otherwise, and is False across different types. -/
def pyEqFV : FieldValue → FieldValue → Bool
  | .str a, .str b => strEqCI a b
  | .dt a, .dt b => a == b
  | _, _ => false

/-- Leaf condition of a rule: field selector, predicate name, comparison
value, exactly the keys of a condition object in rules.json. -/
structure Condition where
  field : String
  predicate : String
  value : String
deriving DecidableEq, Repr

/-- Field-resolution prefix of RuleProcessor._evaluate_condition
(process_rules.py lines 35-47): maps the field selector to the message
attribute and, for "Received", parses the comparison value with dateutil
(raising on bad input) and attaches UTC to the stored timestamp.  Returns
none for an unrecognised selector (the code returns False there). -/
def resolveField (email : Email) (cond : Condition) :
    Option (Except PyErr (FieldValue × FieldValue)) :=
  if cond.field == "From" then some (.ok (.str email.sender, .str cond.value))
  else if cond.field == "To" then some (.ok (.str email.«to», .str cond.value))
  else if cond.field == "Subject" then some (.ok (.str email.subject, .str cond.value))
  else if cond.field == "Message" then some (.ok (.str email.body, .str cond.value))
  else if cond.field == "Received" then
    match dateutil_parse cond.value with
    | some v => some (.ok (.dt { email.received with aware := true }, .dt v))
    | none => some (.error (.parseError cond.value))
  else none

/-- Predicate dispatch of RuleProcessor._evaluate_condition
(process_rules.py lines 49-67).  Contains and Does not Contain are the
lowercased substring test and its negation; Equals and Does not Equal use
pyEqFV; Less Than and Greater Than require the field value to be a
datetime (isinstance check) and otherwise fall through to False, and the
datetime comparison itself raises TypeError when one side is aware and
the other naive, as Python does.  Any other predicate returns False. -/
def applyPredicate (predicate : String) (field_value value : FieldValue) :
    Except PyErr Bool :=
  if predicate == "Contains" then
    .ok (containsL (lowerL field_value.toChars) (lowerL value.toChars))
  else if predicate == "Does not Contain" then
    .ok (!containsL (lowerL field_value.toChars) (lowerL value.toChars))
  else if predicate == "Equals" then .ok (pyEqFV field_value value)
  else if predicate == "Does not Equal" then .ok (!pyEqFV field_value value)
  else if predicate == "Less Than" then
    match field_value, value with
    | .dt a, .dt b =>
      if a.aware != b.aware then .error .typeError else .ok (dtLtB a b)
    | .dt _, .str _ => .error .typeError
    | .str _, _ => .ok false
  else if predicate == "Greater Than" then
    match field_value, value with
    | .dt a, .dt b =>
      if a.aware != b.aware then .error .typeError else .ok (dtLtB b a)
    | .dt _, .str _ => .error .typeError
    | .str _, _ => .ok false
  else .ok false

/-- RuleProcessor._evaluate_condition (process_rules.py lines 29-67):
resolve the field (returning False for an unknown selector, propagating a
dateutil parse failure as an exception), then dispatch on the predicate. -/
def _evaluate_condition (email : Email) (cond : Condition) : Except PyErr Bool :=
  match resolveField email cond with
  | none => .ok false
  | some (.error e) => .error e
  | some (.ok (fv, v)) => applyPredicate cond.predicate fv v

example : _evaluate_condition
    ⟨"m1", "a@b.c", "t@b.c", "Test Subject", "body", ⟨2023, 1, 1, 12, 0, 0, false⟩, false⟩
    ⟨"Subject", "Contains", "test"⟩ = .ok true := by decide

example : _evaluate_condition
    ⟨"m1", "a@b.c", "t@b.c", "Test Subject", "body", ⟨2023, 1, 1, 12, 0, 0, false⟩, false⟩
    ⟨"Received", "Greater Than", "2022-12-31T00:00:00Z"⟩ = .ok true := by decide

example : _evaluate_condition
    ⟨"m1", "a@b.c", "t@b.c", "Test Subject", "body", ⟨2023, 1, 1, 12, 0, 0, false⟩, false⟩
    ⟨"Received", "Contains", "not-a-date"⟩ = .error (.parseError "not-a-date") := by decide

example : _evaluate_condition
    ⟨"m1", "a@b.c", "t@b.c", "Test Subject", "body", ⟨2023, 1, 1, 12, 0, 0, false⟩, false⟩
    ⟨"Received", "Less Than", "2100-01-01"⟩ = .error .typeError := by decide

/-- Conditions node of a rule: the combinator tag ("All" or "Any") and the
list of leaf conditions, exactly the keys of rules.json. -/
structure RuleConditions where
  predicate : String
  rules : List Condition
deriving DecidableEq, Repr

/-- Model of the list comprehension in _evaluate_rule_conditions: each
condition is evaluated in order and the first raised exception
propagates. -/
def evalConditions (email : Email) : List Condition → Except PyErr (List Bool)
  | [] => .ok []
  | c :: rest =>
    match _evaluate_condition email c with
    | .error e => .error e
    | .ok b =>
      match evalConditions email rest with
      | .error e => .error e
      | .ok bs => .ok (b :: bs)

/-- RuleProcessor._evaluate_rule_conditions (process_rules.py lines
69-80): evaluate every condition, then combine the results with all() for
the tag "All", any() for "Any", and False for any other tag. -/
def _evaluate_rule_conditions (email : Email) (rc : RuleConditions) : Except PyErr Bool :=
  match evalConditions email rc.rules with
  | .error e => .error e
  | .ok results =>
    if rc.predicate == "All" then .ok (results.all id)
    else if rc.predicate == "Any" then .ok (results.any id)
    else .ok false

/-- Gmail label resource, reduced to the two fields the code reads. -/
structure Label where
  id : String
  name : String
deriving DecidableEq, Repr

/-- Remote Gmail API calls the engine can issue (the Mailbox Service
interface of spec §6). -/
inductive RemoteCall where
  | modify (id : String) (addLabelIds removeLabelIds : List String)
  | trash (id : String)
  | listLabels
  | createLabel (name : String)
deriving DecidableEq, Repr

/-- State of the remote Mailbox Service: its label set, the label list of
each message, a counter supplying fresh label ids, and the set of calls
that fail (spec §6: failures are delivered as an error result, never a
crash). -/
structure GmailState where
  labels : List Label
  msgLabels : List (String × List String)
  nextLabelNum : Nat
  failing : List RemoteCall
deriving DecidableEq, Repr

/-- Labels of one message in the remote state; a message without an entry
has none. -/
def getMsgLabels (m : List (String × List String)) (id : String) : List String :=
  match m.find? (fun p => p.1 == id) with
  | some p => p.2
  | none => []

/-- Replace the labels of one message in the remote state. -/
def setMsgLabels : List (String × List String) → String → List String →
    List (String × List String)
  | [], id, ls => [(id, ls)]
  | p :: rest, id, ls => if p.1 == id then (id, ls) :: rest else p :: setMsgLabels rest id ls

/-- Add one label id to a label list if it is absent. -/
def addLabelId (ls : List String) (l : String) : List String :=
  if ls.contains l then ls else ls ++ [l]

/-- Effect of one users().messages().modify call on a label list: the
removeLabelIds leave, the addLabelIds enter. -/
def modifyLabelList (ls : List String) (add remove : List String) : List String :=
  add.foldl addLabelId (ls.filter (fun l => !remove.contains l))

/-- Full state the rule processor acts on: whether the Gmail handle is
None, the remote service state, the local message store (the Email rows
of models.py), and the remote calls attempted so far, most recent last. -/
structure EngineState where
  serviceNone : Bool
  gmail : GmailState
  db : List Email
  trace : List RemoteCall
deriving DecidableEq, Repr

/-- Attempt one state-mutating remote call: the call is always recorded in
the trace; a call in the failing set raises, any other call succeeds with
the given effect on the service. -/
def attemptCall (st : EngineState) (c : RemoteCall) (effect : GmailState → GmailState) :
    EngineState × Except PyErr Unit :=
  let st1 := { st with trace := st.trace ++ [c] }
  if st.gmail.failing.contains c then (st1, .error .remoteError)
  else ({ st1 with gmail := effect st1.gmail }, .ok ())

/-- One users().messages().modify(userId, id, body) call. -/
def execModify (st : EngineState) (id : String) (add remove : List String) :
    EngineState × Except PyErr Unit :=
  attemptCall st (.modify id add remove) (fun g =>
    { g with msgLabels :=
        setMsgLabels g.msgLabels id (modifyLabelList (getMsgLabels g.msgLabels id) add remove) })

/-- One users().messages().trash call; Gmail attaches TRASH and removes
INBOX. -/
def execTrash (st : EngineState) (id : String) : EngineState × Except PyErr Unit :=
  attemptCall st (.trash id) (fun g =>
    { g with msgLabels :=
        setMsgLabels g.msgLabels id (modifyLabelList (getMsgLabels g.msgLabels id) ["TRASH"] ["INBOX"]) })

/-- One users().labels().list call, returning the label set. -/
def execListLabels (st : EngineState) : EngineState × Except PyErr (List Label) :=
  let st1 := { st with trace := st.trace ++ [RemoteCall.listLabels] }
  if st.gmail.failing.contains RemoteCall.listLabels then (st1, .error .remoteError)
  else (st1, .ok st1.gmail.labels)

/-- One users().labels().create call: the service assigns a fresh id and
returns the new label resource. -/
def execCreateLabel (st : EngineState) (name : String) : EngineState × Except PyErr Label :=
  let call := RemoteCall.createLabel name
  let st1 := { st with trace := st.trace ++ [call] }
  if st.gmail.failing.contains call then (st1, .error .remoteError)
  else
    let lbl : Label := ⟨"Label_" ++ toString st.gmail.nextLabelNum, name⟩
    ({ st1 with gmail :=
        { st1.gmail with
          labels := st1.gmail.labels ++ [lbl],
          nextLabelNum := st1.gmail.nextLabelNum + 1 } },
     .ok lbl)

/-- Update the is_read flag of the first row matching an id (with id the
primary key, the only such row); models query(Email).filter_by(id=..)
.first() followed by the attribute write and commit, and is the identity
when no row matches. -/
def setReadFirst : List Email → String → Bool → List Email
  | [], _, _ => []
  | e :: rest, id, v =>
    if e.id == id then { e with is_read := v } :: rest
    else e :: setReadFirst rest id v

/-- First row of the local store carrying the given id. -/
def firstWithId (db : List Email) (id : String) : Option Email :=
  db.find? (fun e => e.id == id)

/-- Action object of rules.json: the type tag, plus the label parameter
(params.label) that only the move_message branch reads. -/
structure Action where
  type : String
  label : String
deriving DecidableEq, Repr

/-- Body of the move_message branch (process_rules.py lines 131-155) with
its inner try/except: list the labels, look for a case-insensitive name
match, create the label when absent, then attach the resolved label id;
a failure anywhere inside is caught and logged, keeping the state reached
so far. -/
def move_message (st : EngineState) (email_id label_name : String) : EngineState :=
  match execListLabels st with
  | (st1, .error _) => st1
  | (st1, .ok labelList) =>
    match labelList.find? (fun l => strEqCI l.name label_name) with
    | some label => (execModify st1 email_id [label.id] []).1
    | none =>
      match execCreateLabel st1 label_name with
      | (st2, .error _) => st2
      | (st2, .ok label) => (execModify st2 email_id [label.id] []).1

/-- RuleProcessor._apply_action (process_rules.py lines 82-173).  The
whole body sits inside try/except, so the function is total: a raised
remote error leaves the state reached at the raise.  When the service
handle is None the code only logs; an unrecognised type tag matches no
branch and does nothing. -/
def _apply_action (st : EngineState) (email_id : String) (action : Action) : EngineState :=
  if st.serviceNone then st
  else if action.type == "mark_as_read" then
    match execModify st email_id [] ["UNREAD"] with
    | (st1, .ok _) => { st1 with db := setReadFirst st1.db email_id true }
    | (st1, .error _) => st1
  else if action.type == "mark_as_unread" then
    match execModify st email_id ["UNREAD"] [] with
    | (st1, .ok _) => { st1 with db := setReadFirst st1.db email_id false }
    | (st1, .error _) => st1
  else if action.type == "add_star" then (execModify st email_id ["STARRED"] []).1
  else if action.type == "remove_star" then (execModify st email_id [] ["STARRED"]).1
  else if action.type == "move_message" then move_message st email_id action.label
  else if action.type == "move_to_trash" then (execTrash st email_id).1
  else if action.type == "archive_message" then (execModify st email_id [] ["INBOX"]).1
  else st

/-- Loop of process_emails over one matching rule's action list
(process_rules.py lines 201-202). -/
def apply_actions (st : EngineState) (email_id : String) : List Action → EngineState
  | [] => st
  | a :: rest => apply_actions (_apply_action st email_id a) email_id rest

/-- Rule object of rules.json: name, conditions node, ordered actions. -/
structure Rule where
  name : String
  conditions : RuleConditions
  actions : List Action
deriving DecidableEq, Repr

/-- Inner loop of process_emails over the loaded rules for one message
(process_rules.py lines 198-202): evaluate each rule in order; a true
verdict applies every action of that rule; an exception raised by
condition evaluation propagates, since no handler sits between the loop
body and the outer try of process_emails. -/
def process_rules_for_email (st : EngineState) (email : Email) :
    List Rule → EngineState × Option PyErr
  | [] => (st, none)
  | rule :: rest =>
    match _evaluate_rule_conditions email rule.conditions with
    | .error e => (st, some e)
    | .ok true => process_rules_for_email (apply_actions st email.id rule.actions) email rest
    | .ok false => process_rules_for_email st email rest

/-- Outer loop of process_emails over the queried messages, threading
processed_count; an exception raised while handling one message stops the
whole loop, reaching only the outer try of process_emails. -/
def process_loop (st : EngineState) (rules : List Rule) :
    List Email → Nat → EngineState × Nat × Option PyErr
  | [], n => (st, n, none)
  | e :: rest, n =>
    match process_rules_for_email st e rules with
    | (st1, some err) => (st1, n, some err)
    | (st1, none) => process_loop st1 rules rest (n + 1)

/-- Insert a message into a received-descending list, keeping it sorted. -/
def insertDesc (e : Email) : List Email → List Email
  | [] => [e]
  | x :: xs => if dtGeB x.received e.received then x :: insertDesc e xs else e :: x :: xs

/-- Sort a message list by received timestamp, newest first; model of the
ORDER BY received DESC of the message query. -/
def sortDesc : List Email → List Email
  | [] => []
  | e :: xs => insertDesc e (sortDesc xs)

/-- Query of process_emails (process_rules.py lines 185-193): all rows
ordered by received descending, cut to the optional limit. -/
def queryRecentDesc (db : List Email) (limit : Option Nat) : List Email :=
  match limit with
  | some n => (sortDesc db).take n
  | none => sortDesc db

/-- RuleProcessor.process_emails (process_rules.py lines 175-213): one
full pass, returning the final state together with processed_count; the
outer try/except only logs, so the state reached when an exception
arrives is the result. -/
def process_emails (st : EngineState) (rules : List Rule) (limit : Option Nat) :
    EngineState × Nat :=
  match process_loop st rules (queryRecentDesc st.db limit) 0 with
  | (st1, n, _) => (st1, n)

/-- Follows the words of spec §4.4, for comparison with the code: for each
message of the working set in order, for each loaded rule in file order,
a true verdict applies every action of that rule in order; a message can
match and accumulate the actions of several rules in the same pass. -/
def spec_engine_pass (st : EngineState) (rules : List Rule) (emails : List Email) :
    EngineState :=
  emails.foldl
    (fun acc e =>
      rules.foldl
        (fun acc2 r =>
          if _evaluate_rule_conditions e r.conditions = .ok true then
            apply_actions acc2 e.id r.actions
          else acc2)
        acc)
    st

/-- Replace the failing set of the remote service, leaving every other
component alone; used to state that failures never steer the control
flow. -/
def setFailing (st : EngineState) (fs : List RemoteCall) : EngineState :=
  { st with gmail := { st.gmail with failing := fs } }

/-! Helper lemmas. -/

lemma resolveField_ignores_predicate (email : Email) (f p q v : String) :
    resolveField email ⟨f, p, v⟩ = resolveField email ⟨f, q, v⟩ := rfl

lemma resolveField_recognized (email : Email) (f p v : String)
    (hf : f ∈ (["From", "To", "Subject", "Message", "Received"] : List String)) :
    ∃ r, resolveField email ⟨f, p, v⟩ = some r := by
  fin_cases hf
  · exact ⟨_, rfl⟩
  · exact ⟨_, rfl⟩
  · exact ⟨_, rfl⟩
  · exact ⟨_, rfl⟩
  · unfold resolveField
    cases h : dateutil_parse v <;> simp [h]

/-- Claim C8.  A condition whose field selector is outside the recognized
set (the rules.json tags "From", "To", "Subject", "Message", "Received",
which realise the spec selectors Sender, Recipient, Subject, Body,
ReceivedDate) makes the condition evaluator return False, for every
predicate and every comparison value, raising nothing. -/
theorem C8_unknown_field_evaluates_false (email : Email) (cond : Condition)
    (h : cond.field ∉ (["From", "To", "Subject", "Message", "Received"] : List String)) :
    _evaluate_condition email cond = .ok false := by
  simp only [List.mem_cons, List.not_mem_nil, or_false, not_or] at h
  obtain ⟨h1, h2, h3, h4, h5⟩ := h
  unfold _evaluate_condition resolveField
  simp [h1, h2, h3, h4, h5]

/-- Witness for C8 at the concrete selector "Folder". -/
theorem C8_witness :
    _evaluate_condition
      ⟨"m1", "a@b.c", "t@b.c", "Subj", "body", ⟨2024, 1, 1, 0, 0, 0, false⟩, false⟩
      ⟨"Folder", "Contains", "x"⟩ = .ok false :=
  C8_unknown_field_evaluates_false _ _ (by decide)

/-- Claim C9.  On every message field (the five recognized selectors; an
unrecognized selector falls under claim C8 and gives False for both
predicates by design), whenever the evaluator terminates normally the
predicate Contains evaluates true exactly when Does not Contain evaluates
false: the two predicates are exact negations of each other. -/
theorem C9_notcontains_negates_contains (email : Email) (f v : String)
    (hf : f ∈ (["From", "To", "Subject", "Message", "Received"] : List String)) :
    (∀ b, _evaluate_condition email ⟨f, "Contains", v⟩ = .ok b →
      _evaluate_condition email ⟨f, "Does not Contain", v⟩ = .ok (!b)) ∧
    (∀ b, _evaluate_condition email ⟨f, "Does not Contain", v⟩ = .ok b →
      _evaluate_condition email ⟨f, "Contains", v⟩ = .ok (!b)) := by
  obtain ⟨r, hr⟩ := resolveField_recognized email f "Contains" v hf
  have hr' : resolveField email ⟨f, "Does not Contain", v⟩ = some r := by
    rw [resolveField_ignores_predicate email f "Does not Contain" "Contains" v, hr]
  constructor
  · intro b hb
    unfold _evaluate_condition at hb ⊢
    rw [hr] at hb
    rw [hr']
    cases r with
    | error e => exact absurd hb (by simp)
    | ok p =>
      obtain ⟨fv, w⟩ := p
      have hb' : containsL (lowerL fv.toChars) (lowerL w.toChars) = b := by
        injection hb
      show Except.ok (!containsL (lowerL fv.toChars) (lowerL w.toChars)) = Except.ok (!b)
      rw [hb']
  · intro b hb
    unfold _evaluate_condition at hb ⊢
    rw [hr'] at hb
    rw [hr]
    cases r with
    | error e => exact absurd hb (by simp)
    | ok p =>
      obtain ⟨fv, w⟩ := p
      have hb' : (!containsL (lowerL fv.toChars) (lowerL w.toChars)) = b := by
        injection hb
      show Except.ok (containsL (lowerL fv.toChars) (lowerL w.toChars)) = Except.ok (!b)
      rw [← hb', Bool.not_not]

/-- Witness for C9 on the Subject field. -/
theorem C9_witness :
    _evaluate_condition
      ⟨"m1", "a@b.c", "t@b.c", "Test Subject", "body", ⟨2024, 1, 1, 0, 0, 0, false⟩, false⟩
      ⟨"Subject", "Does not Contain", "test"⟩ = .ok (!true) :=
  (C9_notcontains_negates_contains _ "Subject" "test" (by decide)).1 true (by decide)

lemma evalConditions_spec (email : Email) (conds : List Condition)
    (h : ∀ c ∈ conds, ∃ b, _evaluate_condition email c = .ok b) :
    ∃ rs, evalConditions email conds = .ok rs ∧
      (rs.all id = true ↔ ∀ c ∈ conds, _evaluate_condition email c = .ok true) ∧
      (rs.any id = true ↔ ∃ c ∈ conds, _evaluate_condition email c = .ok true) := by
  induction conds with
  | nil => exact ⟨[], rfl, by simp, by simp⟩
  | cons c cs ih =>
    obtain ⟨b, hb⟩ := h c (List.mem_cons_self c cs)
    obtain ⟨rs, hrs, hall, hany⟩ := ih (fun c' hc' => h c' (List.mem_cons_of_mem c hc'))
    refine ⟨b :: rs, ?_, ?_, ?_⟩
    · unfold evalConditions
      rw [hb, hrs]
    · simp only [List.all_cons, Bool.and_eq_true, hall, List.forall_mem_cons, hb,
        Except.ok.injEq, id_eq]
    · simp only [List.any_cons, Bool.or_eq_true, hany, List.exists_mem_cons_iff, hb,
        Except.ok.injEq, id_eq]

/-- Claim C3.  When every child condition evaluates without raising, the
rule matcher under the combinator "All" returns true exactly when every
child condition is true, and under "Any" exactly when at least one is;
an empty condition list is vacuously true under "All" and vacuously false
under "Any". -/
theorem C3_combinator_semantics (email : Email) (conds : List Condition)
    (h : ∀ c ∈ conds, ∃ b, _evaluate_condition email c = .ok b) :
    (_evaluate_rule_conditions email ⟨"All", conds⟩ = .ok true ↔
      ∀ c ∈ conds, _evaluate_condition email c = .ok true) ∧
    (_evaluate_rule_conditions email ⟨"Any", conds⟩ = .ok true ↔
      ∃ c ∈ conds, _evaluate_condition email c = .ok true) ∧
    _evaluate_rule_conditions email ⟨"All", ([] : List Condition)⟩ = .ok true ∧
    _evaluate_rule_conditions email ⟨"Any", ([] : List Condition)⟩ = .ok false := by
  obtain ⟨rs, hrs, hall, hany⟩ := evalConditions_spec email conds h
  refine ⟨?_, ?_, rfl, rfl⟩
  · unfold _evaluate_rule_conditions
    rw [hrs]
    simpa using hall
  · unfold _evaluate_rule_conditions
    rw [hrs]
    simpa using hany

/-- Witness for C3 on a two-condition list with one true and one false
condition. -/
theorem C3_witness :
    ¬ (_evaluate_rule_conditions
        ⟨"m1", "a@b.c", "t@b.c", "Test Subject", "body", ⟨2024, 1, 1, 0, 0, 0, false⟩, false⟩
        ⟨"All", [⟨"Subject", "Contains", "test"⟩, ⟨"From", "Contains", "zzz"⟩]⟩ = .ok true) ∧
    (_evaluate_rule_conditions
        ⟨"m1", "a@b.c", "t@b.c", "Test Subject", "body", ⟨2024, 1, 1, 0, 0, 0, false⟩, false⟩
        ⟨"Any", [⟨"Subject", "Contains", "test"⟩, ⟨"From", "Contains", "zzz"⟩]⟩ = .ok true) := by
  have h := C3_combinator_semantics
    ⟨"m1", "a@b.c", "t@b.c", "Test Subject", "body", ⟨2024, 1, 1, 0, 0, 0, false⟩, false⟩
    [⟨"Subject", "Contains", "test"⟩, ⟨"From", "Contains", "zzz"⟩] (by decide)
  exact ⟨fun hc => absurd (h.1.mp hc ⟨"From", "Contains", "zzz"⟩ (by decide)) (by decide),
    h.2.1.mpr ⟨⟨"Subject", "Contains", "test"⟩, by decide, by decide⟩⟩

/-- Concrete fixture message used by witnesses and counterexamples. -/
def mailFx : Email :=
  ⟨"m1", "billing@acme.com", "me@x.com", "Invoice Due", "pay now",
    ⟨2024, 1, 2, 0, 0, 0, false⟩, false⟩

/-- Second, older fixture message. -/
def mailFx2 : Email :=
  ⟨"m2", "news@list.com", "me@x.com", "Weekly News", "hello",
    ⟨2024, 1, 1, 0, 0, 0, false⟩, false⟩

/-- Fixture rule whose only condition carries an unparsable date literal. -/
def badDateRule : Rule :=
  ⟨"bad", ⟨"All", [⟨"Received", "Less Than", "not-a-date"⟩]⟩, [⟨"add_star", ""⟩]⟩

/-- Fixture engine state holding the two fixture messages. -/
def stFx : EngineState := ⟨false, ⟨[], [], 0, []⟩, [mailFx, mailFx2], []⟩

lemma applyPredicate_lt_dt (a b : PyDateTime) :
    applyPredicate "Less Than" (.dt a) (.dt b) =
      if a.aware != b.aware then .error .typeError else .ok (dtLtB a b) := rfl

lemma applyPredicate_gt_dt (a b : PyDateTime) :
    applyPredicate "Greater Than" (.dt a) (.dt b) =
      if a.aware != b.aware then .error .typeError else .ok (dtLtB b a) := rfl

lemma eval_received (e : Email) (p v : String) (d : PyDateTime)
    (hv : dateutil_parse v = some d) :
    _evaluate_condition e ⟨"Received", p, v⟩ =
      applyPredicate p (.dt { e.received with aware := true }) (.dt d) := by
  unfold _evaluate_condition resolveField
  simp [hv]

/-- Counterexample to claim C4 as stated: the comparison value
"2100-01-01" parses (dateutil yields a timezone-naive datetime), yet
Less Than on the ReceivedDate field returns neither verdict — it raises
TypeError, because the message timestamp was made timezone-aware while
the parsed literal is naive. -/
theorem C4_counterexample :
    dateutil_parse "2100-01-01" = some ⟨2100, 1, 1, 0, 0, 0, false⟩ ∧
    _evaluate_condition mailFx ⟨"Received", "Less Than", "2100-01-01"⟩ = .error .typeError ∧
    _evaluate_condition mailFx ⟨"Received", "Less Than", "2100-01-01"⟩ ≠ .ok true ∧
    _evaluate_condition mailFx ⟨"Received", "Less Than", "2100-01-01"⟩ ≠ .ok false := by
  decide

/-- Claim C4, amended.  For Less Than and Greater Than on the ReceivedDate
field: when the comparison value parses to a timezone-aware timestamp the
evaluator returns the strict chronological comparison of the message's
received timestamp against it; when the value parses to a timezone-naive
timestamp the comparison raises TypeError, which propagates out of the
evaluator; on every non-date field both predicates return false. -/
theorem C4_amended_date_ordering :
    (∀ (e : Email) (v : String) (d : PyDateTime),
      dateutil_parse v = some d → d.aware = true →
      _evaluate_condition e ⟨"Received", "Less Than", v⟩ = .ok (dtLtB e.received d) ∧
      _evaluate_condition e ⟨"Received", "Greater Than", v⟩ = .ok (dtLtB d e.received)) ∧
    (∀ (e : Email) (v : String) (d : PyDateTime),
      dateutil_parse v = some d → d.aware = false →
      _evaluate_condition e ⟨"Received", "Less Than", v⟩ = .error .typeError ∧
      _evaluate_condition e ⟨"Received", "Greater Than", v⟩ = .error .typeError) ∧
    (∀ (e : Email) (f v : String),
      f ∈ (["From", "To", "Subject", "Message"] : List String) →
      _evaluate_condition e ⟨f, "Less Than", v⟩ = .ok false ∧
      _evaluate_condition e ⟨f, "Greater Than", v⟩ = .ok false) := by
  refine ⟨?_, ?_, ?_⟩
  · intro e v d hv ha
    constructor
    · rw [eval_received e "Less Than" v d hv, applyPredicate_lt_dt]
      simp [ha, dtLtB, PyDateTime.key]
    · rw [eval_received e "Greater Than" v d hv, applyPredicate_gt_dt]
      simp [ha, dtLtB, PyDateTime.key]
  · intro e v d hv ha
    constructor
    · rw [eval_received e "Less Than" v d hv, applyPredicate_lt_dt]
      simp [ha]
    · rw [eval_received e "Greater Than" v d hv, applyPredicate_gt_dt]
      simp [ha]
  · intro e f v hf
    fin_cases hf <;> exact ⟨rfl, rfl⟩

/-- Witness for the amended C4: an aware literal compares, a naive literal
raises, a text field gives false. -/
theorem C4_witness :
    _evaluate_condition mailFx ⟨"Received", "Less Than", "2100-01-01T00:00:00Z"⟩ =
      .ok (dtLtB mailFx.received ⟨2100, 1, 1, 0, 0, 0, true⟩) ∧
    _evaluate_condition mailFx ⟨"Received", "Greater Than", "2100-01-02"⟩ = .error .typeError ∧
    _evaluate_condition mailFx ⟨"Subject", "Less Than", "zzz"⟩ = .ok false :=
  ⟨(C4_amended_date_ordering.1 mailFx "2100-01-01T00:00:00Z" ⟨2100, 1, 1, 0, 0, 0, true⟩
      (by decide) rfl).1,
   (C4_amended_date_ordering.2.1 mailFx "2100-01-02" ⟨2100, 1, 2, 0, 0, 0, false⟩
      (by decide) rfl).2,
   (C4_amended_date_ordering.2.2 mailFx "Subject" "zzz" (by decide)).1⟩

/-- Counterexample to claim C1 as stated: with a rule whose condition
carries the unparsable date literal "not-a-date", the evaluator raises a
parse error instead of returning false, and a pass over two messages
stops at the first one — the processed count is 0 and no further
condition, rule or message is reached, refuting that the run always
continues. -/
theorem C1_counterexample :
    _evaluate_condition mailFx ⟨"Received", "Less Than", "not-a-date"⟩ =
      .error (.parseError "not-a-date") ∧
    process_emails stFx [badDateRule] none = (stFx, 0) := by
  decide

/-- Claim C1, amended.  A condition on the ReceivedDate field whose value
fails to parse makes the evaluator raise a parse error rather than return
false; nothing between the evaluator and the top-level handler of
process_emails catches it, so the pass stops at the raising message: the
processed count freezes and the remaining messages of that pass are never
reached (the outer handler only logs, so the process itself survives). -/
theorem C1_amended_parse_failure_aborts :
    (∀ (e : Email) (c : Condition), c.field = "Received" → dateutil_parse c.value = none →
      _evaluate_condition e c = .error (.parseError c.value)) ∧
    (∀ (st : EngineState) (rules : List Rule) (e : Email) (rest : List Email) (n : Nat)
      (st1 : EngineState) (err : PyErr),
      process_rules_for_email st e rules = (st1, some err) →
      process_loop st rules (e :: rest) n = (st1, n, some err)) := by
  constructor
  · intro e c hf hv
    obtain ⟨f, p, v⟩ := c
    simp only at hf hv
    subst hf
    unfold _evaluate_condition
    have hres : resolveField e ⟨"Received", p, v⟩ = some (.error (.parseError v)) := by
      show (match dateutil_parse v with
        | some w => some (Except.ok (FieldValue.dt { e.received with aware := true },
            FieldValue.dt w))
        | none => some (Except.error (PyErr.parseError v))) = _
      rw [hv]
    rw [hres]
  · intro st rules e rest n st1 err h
    simp [process_loop, h]

/-- Witness for the amended C1: the fixture pass aborts at the first
(newest) message with the parse error, never reaching the second. -/
theorem C1_witness :
    _evaluate_condition mailFx2 ⟨"Received", "Equals", "garbage"⟩ =
      .error (.parseError "garbage") ∧
    process_loop stFx [badDateRule] [mailFx, mailFx2] 0 =
      (stFx, 0, some (.parseError "not-a-date")) :=
  ⟨C1_amended_parse_failure_aborts.1 mailFx2 ⟨"Received", "Equals", "garbage"⟩ rfl (by decide),
   C1_amended_parse_failure_aborts.2 stFx [badDateRule] mailFx [mailFx2] 0 stFx
     (.parseError "not-a-date") (by decide)⟩

lemma getMsgLabels_setMsgLabels (m : List (String × List String)) (id : String)
    (ls : List String) : getMsgLabels (setMsgLabels m id ls) id = ls := by
  induction m with
  | nil => simp [setMsgLabels, getMsgLabels]
  | cons p rest ih =>
    by_cases h : (p.1 == id) = true
    · simp [setMsgLabels, h, getMsgLabels]
    · have hb : (p.1 == id) = false := by
        cases hx : (p.1 == id)
        · rfl
        · exact absurd hx h
      have hsr : setMsgLabels (p :: rest) id ls = p :: setMsgLabels rest id ls := by
        simp [setMsgLabels, hb]
      rw [hsr]
      unfold getMsgLabels
      simp only [List.find?_cons, hb]
      exact ih

lemma contains_addLabelId (ls : List String) (l : String) :
    (addLabelId ls l).contains l = true := by
  unfold addLabelId
  by_cases h : ls.contains l = true
  · rw [if_pos h]
    exact h
  · rw [if_neg h]
    simp

lemma modifyLabelList_add_contains (ls : List String) (add : String) :
    (modifyLabelList ls [add] []).contains add = true := by
  unfold modifyLabelList
  simp only [List.foldl_cons, List.foldl_nil]
  exact contains_addLabelId _ _

lemma mem_modifyLabelList_add (ls : List String) (add : String) :
    add ∈ modifyLabelList ls [add] [] :=
  List.mem_of_elem_eq_true (modifyLabelList_add_contains ls add)

lemma setReadFirst_firstWithId (db : List Email) (id : String) (v : Bool) (e : Email)
    (he : firstWithId db id = some e) :
    firstWithId (setReadFirst db id v) id = some { e with is_read := v } := by
  induction db with
  | nil => simp [firstWithId] at he
  | cons x rest ih =>
    by_cases h : (x.id == id) = true
    · unfold firstWithId at he
      simp only [List.find?_cons, h] at he
      injection he with he
      subst he
      have hsr : setReadFirst (x :: rest) id v = { x with is_read := v } :: rest := by
        simp [setReadFirst, h]
      rw [hsr]
      simp [firstWithId, List.find?_cons, h]
    · have hb : (x.id == id) = false := by
        cases hx : (x.id == id)
        · rfl
        · exact absurd hx h
      unfold firstWithId at he
      simp only [List.find?_cons, hb] at he
      have hsr : setReadFirst (x :: rest) id v = x :: setReadFirst rest id v := by
        simp [setReadFirst, hb]
      rw [hsr]
      unfold firstWithId
      simp only [List.find?_cons, hb]
      exact ih he

/-- Claim C6.  Applying mark_as_read and then mark_as_unread to a message
with a local store record (with no remote failure and a live service
handle) applies the two actions in the given order, so the last write
wins: the remote state ends with the UNREAD marker attached and the local
record ends with is_read = false. -/
lemma apply_mark_as_read (s : EngineState) (id : String)
    (hs : s.serviceNone = false) (hfail : s.gmail.failing = []) :
    _apply_action s id ⟨"mark_as_read", ""⟩ =
      { s with
        trace := s.trace ++ [RemoteCall.modify id [] ["UNREAD"]],
        gmail := { s.gmail with msgLabels := setMsgLabels s.gmail.msgLabels id (modifyLabelList (getMsgLabels s.gmail.msgLabels id) [] ["UNREAD"]) },
        db := setReadFirst s.db id true } := by
  unfold _apply_action execModify attemptCall
  simp [hs, hfail]

lemma apply_mark_as_unread (s : EngineState) (id : String)
    (hs : s.serviceNone = false) (hfail : s.gmail.failing = []) :
    _apply_action s id ⟨"mark_as_unread", ""⟩ =
      { s with
        trace := s.trace ++ [RemoteCall.modify id ["UNREAD"] []],
        gmail := { s.gmail with msgLabels := setMsgLabels s.gmail.msgLabels id (modifyLabelList (getMsgLabels s.gmail.msgLabels id) ["UNREAD"] []) },
        db := setReadFirst s.db id false } := by
  unfold _apply_action execModify attemptCall
  simp [hs, hfail]

theorem C6_read_then_unread (st : EngineState) (id : String) (e : Email)
    (hs : st.serviceNone = false) (hfail : st.gmail.failing = [])
    (he : firstWithId st.db id = some e) :
    (getMsgLabels
        (apply_actions st id [⟨"mark_as_read", ""⟩, ⟨"mark_as_unread", ""⟩]).gmail.msgLabels
        id).contains "UNREAD" = true ∧
    firstWithId
        (apply_actions st id [⟨"mark_as_read", ""⟩, ⟨"mark_as_unread", ""⟩]).db id =
      some { e with is_read := false } := by
  have h1 := apply_mark_as_read st id hs hfail
  have hs1 : (_apply_action st id ⟨"mark_as_read", ""⟩).serviceNone = false := by
    rw [h1]
    exact hs
  have hf1 : (_apply_action st id ⟨"mark_as_read", ""⟩).gmail.failing = [] := by
    rw [h1]
    simpa using hfail
  have h2 := apply_mark_as_unread (_apply_action st id ⟨"mark_as_read", ""⟩) id hs1 hf1
  have happ : apply_actions st id [⟨"mark_as_read", ""⟩, ⟨"mark_as_unread", ""⟩] =
      _apply_action (_apply_action st id ⟨"mark_as_read", ""⟩) id ⟨"mark_as_unread", ""⟩ := rfl
  rw [happ, h2]
  constructor
  · simp only [getMsgLabels_setMsgLabels]
    simp [getMsgLabels_setMsgLabels]
    exact mem_modifyLabelList_add _ _
  · have hstep := setReadFirst_firstWithId st.db id true e he
    have hstep2 := setReadFirst_firstWithId (setReadFirst st.db id true) id false
      { e with is_read := true } hstep
    simp only [h1]
    simpa using hstep2

/-- Witness for C6 on the fixture state: after mark_as_read then
mark_as_unread, message m1 carries UNREAD remotely and is unread locally. -/
theorem C6_witness :
    (getMsgLabels
        (apply_actions stFx "m1" [⟨"mark_as_read", ""⟩, ⟨"mark_as_unread", ""⟩]).gmail.msgLabels
        "m1").contains "UNREAD" = true ∧
    firstWithId
        (apply_actions stFx "m1" [⟨"mark_as_read", ""⟩, ⟨"mark_as_unread", ""⟩]).db "m1" =
      some { mailFx with is_read := false } :=
  C6_read_then_unread stFx "m1" mailFx rfl rfl (by decide)

lemma execListLabels_ok (s : EngineState) (hfail : s.gmail.failing = []) :
    execListLabels s =
      ({ s with trace := s.trace ++ [RemoteCall.listLabels] }, .ok s.gmail.labels) := by
  unfold execListLabels
  simp [hfail]

lemma execCreateLabel_ok (s : EngineState) (name : String) (hfail : s.gmail.failing = []) :
    execCreateLabel s name =
      ({ s with
          trace := s.trace ++ [RemoteCall.createLabel name],
          gmail := { s.gmail with labels := s.gmail.labels ++ [⟨"Label_" ++ toString s.gmail.nextLabelNum, name⟩], nextLabelNum := s.gmail.nextLabelNum + 1 } },
       .ok ⟨"Label_" ++ toString s.gmail.nextLabelNum, name⟩) := by
  unfold execCreateLabel
  simp [hfail]

lemma execModify_ok (s : EngineState) (id : String) (add remove : List String)
    (hfail : s.gmail.failing = []) :
    execModify s id add remove =
      ({ s with
          trace := s.trace ++ [RemoteCall.modify id add remove],
          gmail := { s.gmail with msgLabels := setMsgLabels s.gmail.msgLabels id (modifyLabelList (getMsgLabels s.gmail.msgLabels id) add remove) } },
       .ok ()) := by
  unfold execModify attemptCall
  simp [hfail]

lemma apply_move_message (s : EngineState) (email_id label_name : String)
    (hs : s.serviceNone = false) :
    _apply_action s email_id ⟨"move_message", label_name⟩ =
      move_message s email_id label_name := by
  unfold _apply_action
  simp [hs]

/-- Claim C5.  With a live service handle and no remote failure:
applying move_message when no remote label matches the name
case-insensitively issues exactly one create call followed by exactly one
attach (modify) call carrying the fresh label id; applying it when a
case-insensitive match exists (the first such label, as the code picks)
issues zero create calls and exactly one attach call carrying the matched
label's id.  Both scenarios are read off the full remote-call trace,
which also shows the single preceding label-list call. -/
theorem C5_move_to_label (st : EngineState) (email_id label_name : String)
    (hs : st.serviceNone = false) (hfail : st.gmail.failing = []) :
    ((∀ l ∈ st.gmail.labels, strEqCI l.name label_name = false) →
      (_apply_action st email_id ⟨"move_message", label_name⟩).trace =
        st.trace ++ [RemoteCall.listLabels, RemoteCall.createLabel label_name,
          RemoteCall.modify email_id ["Label_" ++ toString st.gmail.nextLabelNum] []]) ∧
    (∀ l : Label, st.gmail.labels.find? (fun lb => strEqCI lb.name label_name) = some l →
      (_apply_action st email_id ⟨"move_message", label_name⟩).trace =
        st.trace ++ [RemoteCall.listLabels, RemoteCall.modify email_id [l.id] []]) := by
  rw [apply_move_message st email_id label_name hs]
  constructor
  · intro hnone
    have hfind : st.gmail.labels.find? (fun lb => strEqCI lb.name label_name) = none := by
      rw [List.find?_eq_none]
      intro x hx
      simp [hnone x hx]
    simp [move_message, execListLabels_ok, execCreateLabel_ok, execModify_ok, hfind, hfail,
      List.append_assoc]
  · intro l hfind
    simp [move_message, execListLabels_ok, execModify_ok, hfind, hfail, List.append_assoc]

/-- Fixture state for the C5 witness: one remote label, id counter at 3. -/
def stC5 : EngineState := ⟨false, ⟨[⟨"Label_7", "Important"⟩], [], 3, []⟩, [], []⟩

/-- Witness for C5: creating and attaching a fresh label "Projects", and
attaching the existing label "Important" found case-insensitively. -/
theorem C5_witness :
    (_apply_action stC5 "m9" ⟨"move_message", "Projects"⟩).trace =
      stC5.trace ++ [RemoteCall.listLabels, RemoteCall.createLabel "Projects",
        RemoteCall.modify "m9" ["Label_" ++ toString stC5.gmail.nextLabelNum] []] ∧
    (_apply_action stC5 "m9" ⟨"move_message", "IMPORTANT"⟩).trace =
      stC5.trace ++ [RemoteCall.listLabels, RemoteCall.modify "m9" ["Label_7"] []] :=
  ⟨(C5_move_to_label stC5 "m9" "Projects" rfl rfl).1 (by decide),
   (C5_move_to_label stC5 "m9" "IMPORTANT" rfl rfl).2 ⟨"Label_7", "Important"⟩ (by decide)⟩

lemma process_rules_snd_state_independent (e : Email) (rules : List Rule) :
    ∀ (st st' : EngineState),
    (process_rules_for_email st e rules).2 = (process_rules_for_email st' e rules).2 := by
  induction rules with
  | nil => intro st st'; rfl
  | cons r rest ih =>
    intro st st'
    unfold process_rules_for_email
    cases h : _evaluate_rule_conditions e r.conditions with
    | error err => rfl
    | ok b =>
      cases b
      · exact ih st st'
      · exact ih (apply_actions st e.id r.actions) (apply_actions st' e.id r.actions)

lemma process_loop_snd_state_independent (rules : List Rule) :
    ∀ (emails : List Email) (n : Nat) (st st' : EngineState),
    (process_loop st rules emails n).2 = (process_loop st' rules emails n).2 := by
  intro emails
  induction emails with
  | nil => intro n st st'; rfl
  | cons e rest ih =>
    intro n st st'
    unfold process_loop
    rcases hA : process_rules_for_email st e rules with ⟨st1, err1⟩
    rcases hB : process_rules_for_email st' e rules with ⟨st2, err2⟩
    have h3 : err1 = err2 := by
      have h2 := process_rules_snd_state_independent e rules st st'
      rw [hA, hB] at h2
      exact h2
    subst h3
    cases err1 with
    | some er => rfl
    | none => exact ih (n + 1) st1 st2

lemma attemptCall_fst_trace (st : EngineState) (c : RemoteCall) (eff : GmailState → GmailState) :
    (attemptCall st c eff).1.trace = st.trace ++ [c] := by
  unfold attemptCall
  split <;> rfl

lemma execModify_fst_trace (st : EngineState) (id : String) (add remove : List String) :
    (execModify st id add remove).1.trace = st.trace ++ [RemoteCall.modify id add remove] :=
  attemptCall_fst_trace st _ _

lemma execTrash_fst_trace (st : EngineState) (id : String) :
    (execTrash st id).1.trace = st.trace ++ [RemoteCall.trash id] :=
  attemptCall_fst_trace st _ _

lemma execListLabels_fst_trace (st : EngineState) :
    (execListLabels st).1.trace = st.trace ++ [RemoteCall.listLabels] := by
  unfold execListLabels
  split <;> rfl

lemma execCreateLabel_fst_trace (st : EngineState) (name : String) :
    (execCreateLabel st name).1.trace = st.trace ++ [RemoteCall.createLabel name] := by
  unfold execCreateLabel
  dsimp only
  split <;> rfl

lemma move_message_trace (st : EngineState) (id name : String) :
    ∃ tail, (move_message st id name).trace = st.trace ++ tail := by
  unfold move_message
  rcases h1 : execListLabels st with ⟨st1, r1⟩
  have ht1 : st1.trace = st.trace ++ [RemoteCall.listLabels] := by
    have h := execListLabels_fst_trace st
    rw [h1] at h
    exact h
  cases r1 with
  | error e1 => exact ⟨[RemoteCall.listLabels], ht1⟩
  | ok labelList =>
    cases h2 : labelList.find? (fun l => strEqCI l.name name) with
    | some lbl =>
      refine ⟨[RemoteCall.listLabels, RemoteCall.modify id [lbl.id] []], ?_⟩
      have h := execModify_fst_trace st1 id [lbl.id] []
      rw [ht1] at h
      simp only [h2]
      rw [h]
      simp
    | none =>
      simp only [h2]
      rcases h3 : execCreateLabel st1 name with ⟨st2, r2⟩
      have ht2 : st2.trace = st1.trace ++ [RemoteCall.createLabel name] := by
        have h := execCreateLabel_fst_trace st1 name
        rw [h3] at h
        exact h
      cases r2 with
      | error e2 =>
        refine ⟨[RemoteCall.listLabels, RemoteCall.createLabel name], ?_⟩
        rw [ht2, ht1]
        simp
      | ok lbl =>
        refine ⟨[RemoteCall.listLabels, RemoteCall.createLabel name,
          RemoteCall.modify id [lbl.id] []], ?_⟩
        have h := execModify_fst_trace st2 id [lbl.id] []
        rw [ht2, ht1] at h
        rw [h]
        simp

lemma apply_action_trace (st : EngineState) (id : String) (a : Action) :
    ∃ tail, (_apply_action st id a).trace = st.trace ++ tail := by
  unfold _apply_action
  by_cases h0 : st.serviceNone = true
  · rw [if_pos h0]
    exact ⟨[], (List.append_nil _).symm⟩
  rw [if_neg h0]
  by_cases h1 : (a.type == "mark_as_read") = true
  · rw [if_pos h1]
    rcases hm : execModify st id [] ["UNREAD"] with ⟨st1, r⟩
    have ht := execModify_fst_trace st id [] ["UNREAD"]
    rw [hm] at ht
    cases r with
    | ok u => exact ⟨_, ht⟩
    | error e1 => exact ⟨_, ht⟩
  rw [if_neg h1]
  by_cases h2 : (a.type == "mark_as_unread") = true
  · rw [if_pos h2]
    rcases hm : execModify st id ["UNREAD"] [] with ⟨st1, r⟩
    have ht := execModify_fst_trace st id ["UNREAD"] []
    rw [hm] at ht
    cases r with
    | ok u => exact ⟨_, ht⟩
    | error e1 => exact ⟨_, ht⟩
  rw [if_neg h2]
  by_cases h3 : (a.type == "add_star") = true
  · rw [if_pos h3]
    exact ⟨_, execModify_fst_trace st id ["STARRED"] []⟩
  rw [if_neg h3]
  by_cases h4 : (a.type == "remove_star") = true
  · rw [if_pos h4]
    exact ⟨_, execModify_fst_trace st id [] ["STARRED"]⟩
  rw [if_neg h4]
  by_cases h5 : (a.type == "move_message") = true
  · rw [if_pos h5]
    exact move_message_trace st id a.label
  rw [if_neg h5]
  by_cases h6 : (a.type == "move_to_trash") = true
  · rw [if_pos h6]
    exact ⟨_, execTrash_fst_trace st id⟩
  rw [if_neg h6]
  by_cases h7 : (a.type == "archive_message") = true
  · rw [if_pos h7]
    exact ⟨_, execModify_fst_trace st id [] ["INBOX"]⟩
  rw [if_neg h7]
  exact ⟨[], (List.append_nil _).symm⟩

/-- Claim C7.  Remote-call failures are absorbed inside the action
applicator and never steer the engine: (1) for every failing set, the
processed count and abort status of a pass are identical to the
failure-free run, so no failure prevents a later action or message from
being processed; (2) every single action application returns normally,
extending the attempted-call trace; (3) after one action (failed or not)
the remaining actions of the same rule are applied. -/
theorem C7_remote_failures_contained :
    (∀ (st : EngineState) (fs : List RemoteCall) (rules : List Rule) (emails : List Email)
      (n : Nat),
      (process_loop (setFailing st fs) rules emails n).2 = (process_loop st rules emails n).2) ∧
    (∀ (st : EngineState) (id : String) (a : Action),
      ∃ tail, (_apply_action st id a).trace = st.trace ++ tail) ∧
    (∀ (st : EngineState) (id : String) (a : Action) (rest : List Action),
      apply_actions st id (a :: rest) = apply_actions (_apply_action st id a) id rest) := by
  refine ⟨?_, apply_action_trace, fun _ _ _ _ => rfl⟩
  intro st fs rules emails n
  exact process_loop_snd_state_independent rules emails n (setFailing st fs) st

lemma process_rules_no_error (e : Email) (rules : List Rule) :
    ∀ (st : EngineState),
    (∀ r ∈ rules, ∃ b, _evaluate_rule_conditions e r.conditions = .ok b) →
    process_rules_for_email st e rules =
      (rules.foldl
        (fun acc r =>
          if _evaluate_rule_conditions e r.conditions = .ok true then
            apply_actions acc e.id r.actions
          else acc)
        st, none) := by
  induction rules with
  | nil => intro st _; rfl
  | cons r rest ih =>
    intro st h
    obtain ⟨b, hb⟩ := h r (List.mem_cons_self r rest)
    unfold process_rules_for_email
    rw [hb]
    cases b
    · rw [List.foldl_cons, if_neg (by simp [hb])]
      exact ih st (fun r' hr' => h r' (List.mem_cons_of_mem r hr'))
    · rw [List.foldl_cons, if_pos hb]
      exact ih (apply_actions st e.id r.actions) (fun r' hr' => h r' (List.mem_cons_of_mem r hr'))

lemma process_loop_no_error (rules : List Rule) :
    ∀ (emails : List Email) (st : EngineState) (n : Nat),
    (∀ e ∈ emails, ∀ r ∈ rules, ∃ b, _evaluate_rule_conditions e r.conditions = .ok b) →
    process_loop st rules emails n =
      (spec_engine_pass st rules emails, n + emails.length, none) := by
  intro emails
  induction emails with
  | nil => intro st n _; simp [process_loop, spec_engine_pass]
  | cons e rest ih =>
    intro st n h
    unfold process_loop
    rw [process_rules_no_error e rules st (h e (List.mem_cons_self e rest))]
    have hrec := ih
      (rules.foldl
        (fun acc r =>
          if _evaluate_rule_conditions e r.conditions = .ok true then
            apply_actions acc e.id r.actions
          else acc)
        st)
      (n + 1) (fun e' he' r hr => h e' (List.mem_cons_of_mem e he') r hr)
    simp only [hrec, spec_engine_pass, List.foldl_cons, List.length_cons]
    have harith : n + 1 + rest.length = n + (rest.length + 1) := by omega
    rw [harith]

lemma mem_insertDesc (e x : Email) (l : List Email) (hx : x ∈ insertDesc e l) :
    x = e ∨ x ∈ l := by
  induction l with
  | nil =>
    simp [insertDesc] at hx
    exact Or.inl hx
  | cons y ys ih =>
    unfold insertDesc at hx
    by_cases h : dtGeB y.received e.received = true
    · rw [if_pos h] at hx
      rcases List.mem_cons.mp hx with h1 | h2
      · exact Or.inr (by simp [h1])
      · rcases ih h2 with h3 | h4
        · exact Or.inl h3
        · exact Or.inr (List.mem_cons_of_mem y h4)
    · rw [if_neg h] at hx
      rcases List.mem_cons.mp hx with h1 | h2
      · exact Or.inl h1
      · exact Or.inr h2

lemma dtGeB_total (a b : PyDateTime) (h : ¬dtGeB a b = true) : dtGeB b a = true := by
  unfold dtGeB at h ⊢
  simp only [decide_eq_true_eq] at h ⊢
  omega

lemma dtGeB_trans (a b c : PyDateTime) (h1 : dtGeB a b = true) (h2 : dtGeB b c = true) :
    dtGeB a c = true := by
  unfold dtGeB at h1 h2 ⊢
  simp only [decide_eq_true_eq] at h1 h2 ⊢
  omega

lemma insertDesc_sorted (e : Email) (l : List Email)
    (hl : List.Sorted (fun a b : Email => dtGeB a.received b.received = true) l) :
    List.Sorted (fun a b : Email => dtGeB a.received b.received = true) (insertDesc e l) := by
  induction l with
  | nil => simp [insertDesc]
  | cons x xs ih =>
    rw [List.sorted_cons] at hl
    obtain ⟨hx, hxs⟩ := hl
    unfold insertDesc
    by_cases h : dtGeB x.received e.received = true
    · rw [if_pos h]
      rw [List.sorted_cons]
      refine ⟨?_, ih hxs⟩
      intro y hy
      rcases mem_insertDesc e y xs hy with h1 | h2
      · rw [h1]
        exact h
      · exact hx y h2
    · rw [if_neg h]
      rw [List.sorted_cons]
      refine ⟨?_, List.sorted_cons.mpr ⟨hx, hxs⟩⟩
      intro y hy
      rcases List.mem_cons.mp hy with h1 | h2
      · rw [h1]
        exact dtGeB_total _ _ h
      · exact dtGeB_trans _ _ _ (dtGeB_total _ _ h) (hx y h2)

lemma sortDesc_sorted (l : List Email) :
    List.Sorted (fun a b : Email => dtGeB a.received b.received = true) (sortDesc l) := by
  induction l with
  | nil => simp [sortDesc]
  | cons e xs ih => exact insertDesc_sorted e (sortDesc xs) ih

lemma queryRecentDesc_sorted (db : List Email) (limit : Option Nat) :
    List.Sorted (fun a b : Email => dtGeB a.received b.received = true)
      (queryRecentDesc db limit) := by
  cases limit with
  | none => exact sortDesc_sorted db
  | some n => exact (sortDesc_sorted db).sublist (List.take_sublist n (sortDesc db))

/-- Claim C2.  When no condition evaluation raises, one engine pass is
exactly the loop the spec describes: the working set is the queried
messages in received-descending order (the Sorted conjunct), and the
resulting state is the fold that, for each message in that order and for
each loaded rule in file order, applies every action of each matching rule
in order — so a message accumulates the actions of all its matching rules
in the same pass, with no stop-on-first-match and no rule priority — and
the processed count is the full length of the working set. -/
theorem C2_engine_order (st : EngineState) (rules : List Rule) (limit : Option Nat)
    (h : ∀ e ∈ queryRecentDesc st.db limit, ∀ r ∈ rules, ∃ b,
      _evaluate_rule_conditions e r.conditions = .ok b) :
    process_emails st rules limit =
      (spec_engine_pass st rules (queryRecentDesc st.db limit),
        (queryRecentDesc st.db limit).length) ∧
    List.Sorted (fun a b : Email => dtGeB a.received b.received = true)
      (queryRecentDesc st.db limit) := by
  refine ⟨?_, queryRecentDesc_sorted st.db limit⟩
  unfold process_emails
  rw [process_loop_no_error rules (queryRecentDesc st.db limit) st 0 h]
  simp

/-- Fixture rule matching the fixture message on its subject. -/
def ruleA : Rule :=
  ⟨"Invoice", ⟨"All", [⟨"Subject", "Contains", "invoice"⟩]⟩, [⟨"mark_as_read", ""⟩]⟩

/-- Second fixture rule matching the same fixture message on its sender. -/
def ruleB : Rule :=
  ⟨"Acme", ⟨"Any", [⟨"From", "Contains", "acme"⟩]⟩, [⟨"add_star", ""⟩]⟩

/-- Fixture engine state for the C2 witness. -/
def stC2 : EngineState := ⟨false, ⟨[], [("m1", ["UNREAD", "INBOX"])], 0, []⟩, [mailFx, mailFx2], []⟩

/-- Witness for C2: a pass with two rules that both match the newest
fixture message. -/
theorem C2_witness :
    process_emails stC2 [ruleA, ruleB] none =
      (spec_engine_pass stC2 [ruleA, ruleB] (queryRecentDesc stC2.db none),
        (queryRecentDesc stC2.db none).length) ∧
    List.Sorted (fun a b : Email => dtGeB a.received b.received = true)
      (queryRecentDesc stC2.db none) :=
  C2_engine_order stC2 [ruleA, ruleB] none (by decide)

/-- Witness for C7: a failing UNREAD-modify call leaves the processed
count and abort status of the fixture pass unchanged. -/
theorem C7_witness :
    (process_loop (setFailing stFx [RemoteCall.modify "m1" [] ["UNREAD"]])
      [ruleA] [mailFx] 0).2 = (process_loop stFx [ruleA] [mailFx] 0).2 :=
  C7_remote_failures_contained.1 stFx [RemoteCall.modify "m1" [] ["UNREAD"]] [ruleA] [mailFx] 0

/-- Claim C10.  An action whose type tag is outside the recognized set of
seven makes _apply_action a complete no-op: the resulting state is the
input state, so no remote call is recorded, the local store is untouched,
and nothing is raised. -/
theorem C10_unknown_action_noop (st : EngineState) (email_id : String) (action : Action)
    (h : action.type ∉ (["mark_as_read", "mark_as_unread", "add_star", "remove_star",
      "move_message", "move_to_trash", "archive_message"] : List String)) :
    _apply_action st email_id action = st := by
  simp only [List.mem_cons, List.not_mem_nil, or_false, not_or] at h
  obtain ⟨h1, h2, h3, h4, h5, h6, h7⟩ := h
  unfold _apply_action
  simp [h1, h2, h3, h4, h5, h6, h7]

/-- Witness for C10 at the concrete type tag "snooze". -/
theorem C10_witness :
    _apply_action
      ⟨false, ⟨[], [("m1", ["INBOX"])], 0, []⟩, [], []⟩ "m1" ⟨"snooze", ""⟩ =
      ⟨false, ⟨[], [("m1", ["INBOX"])], 0, []⟩, [], []⟩ :=
  C10_unknown_action_noop _ _ _ (by decide)

end InboxOracle
